import Mathlib

/-!
Shallow embedding of the alert suppression and deduplication engine of
`correlation_alert_suppression_deduplication.py` (function
`suppress_and_deduplicate`, lines 157-179), with proofs of the specified
properties of that engine.

Modelling choices:
* An alert record (one row of the simulated DataFrame) is `AlertEvent`, with
  the fields built in `generate_alerts`: numeric id, service, alert type,
  severity, and a timestamp.  Timestamps and the window duration are
  integers measured in minutes, mirroring
  `datetime.timedelta(minutes=suppression_window)`; Python datetime
  arithmetic and comparison are the ordered additive structure `Int`
  provides.
* The MD5 content hash of the string `service_alertType_severity` (line 161)
  is modelled by the hashed string itself: the hash is used only as a
  dictionary key, so up to MD5 collisions the string is the key.
* The Python dict `suppression_end` is an association list with
  insert-or-overwrite update; `df.sort_values('timestamp')` (line 158) is
  `List.mergeSort` on timestamps.
* The loop over `df.iterrows()` accumulating `processed_alerts` is a left
  fold carrying the pair (dictionary, output list).
* Line 161 stores the key as an `alert_hash` column of the working frame,
  and the rows appended to `processed_alerts` carry that added column into
  the returned frame.  `suppress_and_deduplicate` keeps only the alert
  fields of the survivors; `suppress_and_deduplicate_rows` models the
  returned rows at full fidelity, column included.
-/

structure AlertEvent where
  alert_id : Nat
  service : String
  alert_type : String
  severity : String
  timestamp : Int
deriving DecidableEq, Repr

/-- Line 161: the deduplication key of an alert, the string
`service_alertType_severity` whose MD5 digest the code stores in the
`alert_hash` column (MD5 modelled as injective). -/
def alert_hash (e : AlertEvent) : String :=
  e.service ++ "_" ++ e.alert_type ++ "_" ++ e.severity

/-- Dictionary lookup `suppression_end[k]` (also the `in` test), on the
association-list model of the dict. -/
def lookupEnd : List (String × Int) → String → Option Int
  | [], _ => none
  | (k0, v) :: rest, k => if k0 = k then some v else lookupEnd rest k

/-- Dictionary store `suppression_end[k] = v`: overwrite the entry if the key
is present, otherwise append a fresh entry. -/
def insertEnd : List (String × Int) → String → Int → List (String × Int)
  | [], k, v => [(k, v)]
  | (k0, v0) :: rest, k, v =>
      if k0 = k then (k, v) :: rest else (k0, v0) :: insertEnd rest k v

/-- Line 172: the suppression test
`alert_hash in suppression_end and current_time <= suppression_end[alert_hash]`. -/
def suppressedIn (m : List (String × Int)) (e : AlertEvent) : Bool :=
  match lookupEnd m (alert_hash e) with
  | some endT => decide (e.timestamp ≤ endT)
  | none => false

/-- Lines 167-177: one iteration of the loop body, acting on the pair
(`suppression_end`, `processed_alerts`).  A suppressed alert leaves the state
unchanged (`continue`); otherwise the alert is appended to the output and its
window end `current_time + timedelta(minutes=w)` is stored. -/
def suppressStep (w : Int) (st : List (String × Int) × List AlertEvent)
    (e : AlertEvent) : List (String × Int) × List AlertEvent :=
  if suppressedIn st.1 e then st
  else (insertEnd st.1 (alert_hash e) (e.timestamp + w), st.2 ++ [e])

/-- Line 158: `df.sort_values('timestamp')`, ascending sort on the timestamp. -/
def sortTs (df : List AlertEvent) : List AlertEvent :=
  df.mergeSort fun a b => decide (a.timestamp ≤ b.timestamp)

/-- Lines 157-179 keeping both results of the pass: the final
`suppression_end` dictionary and the `processed_alerts` output. -/
def suppressionRun (df : List AlertEvent) (w : Int) :
    List (String × Int) × List AlertEvent :=
  (sortTs df).foldl (suppressStep w) ([], [])

/-- Lines 157-179: `suppress_and_deduplicate(df, suppression_window)`, the
surviving alerts projected to their alert fields; the returned frame's rows
additionally carry the stored `alert_hash` column, modelled below by
`suppress_and_deduplicate_rows`. -/
def suppress_and_deduplicate (df : List AlertEvent) (w : Int) :
    List AlertEvent :=
  (suppressionRun df w).2

/-! Structural-recursion form of the pass, used in proofs; `foldl_suppressStep`
relates it to the accumulator form above. -/

/-- Recursive form of the single pass: from dictionary `m`, returns the final
dictionary and the survivors of the remaining events. -/
def runPair (w : Int) (m : List (String × Int)) :
    List AlertEvent → List (String × Int) × List AlertEvent
  | [] => (m, [])
  | e :: rest =>
    if suppressedIn m e then runPair w m rest
    else
      let p := runPair w (insertEnd m (alert_hash e) (e.timestamp + w)) rest
      (p.1, e :: p.2)

/-- Input precondition of the spec: events sorted ascending by timestamp. -/
def SortedTs (l : List AlertEvent) : Prop :=
  l.Pairwise fun a b => a.timestamp ≤ b.timestamp

instance : DecidablePred SortedTs := fun l =>
  inferInstanceAs (Decidable (l.Pairwise _))

/-- Single-key view of the pass: the survivors among alerts of one key, given
the window end currently stored for the key (if any). -/
def runKey (w : Int) : Option Int → List AlertEvent → List AlertEvent
  | _, [] => []
  | some endT, e :: rest =>
      if e.timestamp ≤ endT then runKey w (some endT) rest
      else e :: runKey w (some (e.timestamp + w)) rest
  | none, e :: rest => e :: runKey w (some (e.timestamp + w)) rest

/-- Algorithm of spec section 4.1 stated in the spec's own terms: a single
pass with a partial map `activeWindowEnd`; an event whose key is present
with `event.timestamp <= activeWindowEnd[k]` is suppressed and the state is
unchanged, every other event survives, is appended to the output, and sets
`activeWindowEnd[k] = event.timestamp + windowDuration`. -/
def specProcess (w : Int) (awe : String → Option Int) :
    List AlertEvent → List AlertEvent
  | [] => []
  | e :: rest =>
    match awe (alert_hash e) with
    | some endT =>
        if e.timestamp ≤ endT then specProcess w awe rest
        else e :: specProcess w
          (fun k => if k = alert_hash e then some (e.timestamp + w) else awe k) rest
    | none =>
        e :: specProcess w
          (fun k => if k = alert_hash e then some (e.timestamp + w) else awe k) rest

/-- Concrete alerts used in witnesses and counterexamples, with field values
drawn from the repository's generator (`Service_i`, alert type `CPU`,
severity `High`); `i` is the alert id and `t` the timestamp in minutes. -/
def sampleAlert (i : Nat) (t : Int) : AlertEvent :=
  ⟨i, "Service_0", "CPU", "High", t⟩

/-- Concrete alert of a second service, hence of a different grouping key. -/
def sampleAlertB (i : Nat) (t : Int) : AlertEvent :=
  ⟨i, "Service_1", "CPU", "High", t⟩

/-! Row-level model of the frames.  Line 161 stores the computed key as an
`alert_hash` column of the working frame, and the rows appended to
`processed_alerts` — hence the returned frame — carry that added column.
An `AlertRow` is a frame row: the alert fields plus the optional
`alert_hash` column (`none` on the input frame, which has no such column). -/

/-- Row of a frame: the alert fields plus the `alert_hash` column when the
frame has one. -/
structure AlertRow where
  base : AlertEvent
  alert_hash : Option String
deriving DecidableEq, Repr

/-- Row of the input frame built by `generate_alerts`: no `alert_hash`
column. -/
def toRow (e : AlertEvent) : AlertRow :=
  ⟨e, none⟩

/-- Line 161 applied to one row: store the computed deduplication key in the
`alert_hash` column. -/
def addHash (e : AlertEvent) : AlertRow :=
  ⟨e, some (alert_hash e)⟩

/-- Loop body of lines 167-177 acting on frame rows: the key is read from
the stored `alert_hash` column (line 169) and the whole row — column
included — is appended to `processed_alerts` (line 176).  The `none` branch
is unreachable in the program: line 161 runs before the loop, so the column
is present in every row the loop sees. -/
def suppressStepRow (w : Int) (st : List (String × Int) × List AlertRow)
    (r : AlertRow) : List (String × Int) × List AlertRow :=
  match r.alert_hash with
  | none => st
  | some h =>
      if (match lookupEnd st.1 h with
          | some endT => decide (r.base.timestamp ≤ endT)
          | none => false)
      then st
      else (insertEnd st.1 h (r.base.timestamp + w), st.2 ++ [r])

/-- Lines 157-179 at full row fidelity: sort, store the `alert_hash` column
(line 161), run the pass, and return the processed rows, which retain the
added column. -/
def suppress_and_deduplicate_rows (df : List AlertEvent) (w : Int) :
    List AlertRow :=
  (((sortTs df).map addHash).foldl (suppressStepRow w) ([], [])).2

theorem foldl_suppressStep (w : Int) (l : List AlertEvent) :
    ∀ (m : List (String × Int)) (acc : List AlertEvent),
      l.foldl (suppressStep w) (m, acc)
        = ((runPair w m l).1, acc ++ (runPair w m l).2) := by
  induction l with
  | nil => intro m acc; simp [runPair]
  | cons e rest ih =>
      intro m acc
      by_cases h : suppressedIn m e
      · simp [List.foldl_cons, suppressStep, runPair, h, ih]
      · simp [List.foldl_cons, suppressStep, runPair, h, ih]

theorem suppressionRun_eq_runPair (df : List AlertEvent) (w : Int) :
    suppressionRun df w = runPair w [] (sortTs df) := by
  simp [suppressionRun, foldl_suppressStep]

theorem suppress_and_deduplicate_eq_runPair (df : List AlertEvent) (w : Int) :
    suppress_and_deduplicate df w = (runPair w [] (sortTs df)).2 := by
  simp [suppress_and_deduplicate, suppressionRun_eq_runPair]

/-! Basic facts about the association-list dictionary. -/

theorem lookupEnd_insertEnd (m : List (String × Int)) (k k' : String) (v : Int) :
    lookupEnd (insertEnd m k v) k'
      = if k = k' then some v else lookupEnd m k' := by
  induction m with
  | nil => simp [insertEnd, lookupEnd]
  | cons p rest ih =>
      obtain ⟨k0, v0⟩ := p
      by_cases h : k0 = k
      · subst h
        by_cases h2 : k0 = k'
        · subst h2; simp [insertEnd, lookupEnd]
        · simp [insertEnd, lookupEnd, h2]
      · by_cases h2 : k = k'
        · subst h2
          simp [insertEnd, lookupEnd, h, ih]
        · simp [insertEnd, lookupEnd, h, h2, ih]

theorem mem_insertEnd {m : List (String × Int)} {k : String} {v : Int}
    {p : String × Int} (hp : p ∈ insertEnd m k v) : p = (k, v) ∨ p ∈ m := by
  induction m with
  | nil => simpa [insertEnd] using hp
  | cons q rest ih =>
      obtain ⟨k0, v0⟩ := q
      by_cases h : k0 = k
      · subst h
        rcases (by simpa [insertEnd] using hp : p = (k0, v) ∨ p ∈ rest) with h1 | h1
        · exact Or.inl h1
        · exact Or.inr (List.mem_cons_of_mem _ h1)
      · rcases (by simpa [insertEnd, h] using hp :
            p = (k0, v0) ∨ p ∈ insertEnd rest k v) with h1 | h1
        · exact Or.inr (by simp [h1])
        · rcases ih h1 with h2 | h2
          · exact Or.inl h2
          · exact Or.inr (List.mem_cons_of_mem _ h2)

theorem lookupEnd_mem {m : List (String × Int)} {k : String} {v : Int}
    (h : lookupEnd m k = some v) : (k, v) ∈ m := by
  induction m with
  | nil => simp [lookupEnd] at h
  | cons p rest ih =>
      obtain ⟨k0, v0⟩ := p
      by_cases h0 : k0 = k
      · subst h0
        have hv : v0 = v := by simpa [lookupEnd] using h
        subst hv; exact List.mem_cons_self _ _
      · have h' : lookupEnd rest k = some v := by simpa [lookupEnd, h0] using h
        exact List.mem_cons_of_mem _ (ih h')

/-! Facts about the pass itself. -/

theorem runPair_snd_sublist (w : Int) (l : List AlertEvent) :
    ∀ m : List (String × Int), (runPair w m l).2.Sublist l := by
  induction l with
  | nil => intro m; simp [runPair]
  | cons e rest ih =>
      intro m
      by_cases h : suppressedIn m e
      · simpa [runPair, h] using ((ih m).trans (List.sublist_cons_self e rest))
      · simpa [runPair, h] using (ih (insertEnd m (alert_hash e) (e.timestamp + w))).cons₂ e

theorem runPair_snd_idem (w : Int) (l : List AlertEvent) :
    ∀ m : List (String × Int),
      (runPair w m (runPair w m l).2).2 = (runPair w m l).2 := by
  induction l with
  | nil => intro m; simp [runPair]
  | cons e rest ih =>
      intro m
      by_cases h : suppressedIn m e
      · simp [runPair, h, ih]
      · simp only [runPair, h, if_neg, Bool.false_eq_true, not_false_iff]
        simp [runPair, h, ih (insertEnd m (alert_hash e) (e.timestamp + w))]

/-! Sortedness of the input and behaviour of the defensive sort. -/

theorem sortTs_of_sorted {l : List AlertEvent} (h : SortedTs l) : sortTs l = l := by
  apply List.mergeSort_of_sorted
  exact h.imp fun hab => by simpa using hab

theorem sortTs_sorted (l : List AlertEvent) : SortedTs (sortTs l) := by
  have h := @List.sorted_mergeSort AlertEvent
    (fun a b : AlertEvent => decide (a.timestamp ≤ b.timestamp))
    (fun a b c hab hbc => by
      simp only [decide_eq_true_eq] at *
      exact le_trans hab hbc)
    (fun a b => by
      simp only [Bool.or_eq_true, decide_eq_true_eq]
      exact le_total a.timestamp b.timestamp)
    l
  exact h.imp fun hab => by simpa using hab

theorem sortTs_perm (l : List AlertEvent) : (sortTs l).Perm l :=
  List.mergeSort_perm l _

theorem sortTs_pair (x y : AlertEvent) :
    sortTs [x, y] = if x.timestamp ≤ y.timestamp then [x, y] else [y, x] := by
  rw [sortTs, List.mergeSort]
  simp [List.mergeSort, List.merge]

/-! Projection of the pass onto one grouping key.  `runKey` is the pass a
single key sees: its state is just that key's stored window end. -/

theorem runPair_filter_key (w : Int) (k : String) (l : List AlertEvent) :
    ∀ m : List (String × Int),
      (runPair w m l).2.filter (fun e => decide (alert_hash e = k))
        = runKey w (lookupEnd m k)
            (l.filter fun e => decide (alert_hash e = k)) := by
  induction l with
  | nil => intro m; cases lookupEnd m k <;> simp [runPair, runKey]
  | cons e rest ih =>
      intro m
      by_cases hk : alert_hash e = k
      · cases hm : lookupEnd m k with
        | none =>
            have hs : ¬ suppressedIn m e = true := by
              simp [suppressedIn, hk, hm]
            have hins : lookupEnd (insertEnd m k (e.timestamp + w)) k
                = some (e.timestamp + w) := by
              simp [lookupEnd_insertEnd]
            simp [runPair, hs, List.filter_cons, hk, runKey, hm, ih, hins]
        | some endT =>
            by_cases ht : e.timestamp ≤ endT
            · have hs : suppressedIn m e = true := by
                simp [suppressedIn, hk, hm, ht]
              simp [runPair, hs, List.filter_cons, hk, runKey, hm, ht, ih]
            · have hs : ¬ suppressedIn m e = true := by
                simp [suppressedIn, hk, hm, ht]
              have hins : lookupEnd (insertEnd m k (e.timestamp + w)) k
                  = some (e.timestamp + w) := by
                simp [lookupEnd_insertEnd]
              simp [runPair, hs, List.filter_cons, hk, runKey, hm, ht, ih, hins]
      · have hins : lookupEnd (insertEnd m (alert_hash e) (e.timestamp + w)) k
            = lookupEnd m k := by
          simp [lookupEnd_insertEnd, hk]
        by_cases hs : suppressedIn m e
        · simp [runPair, hs, List.filter_cons, hk, ih]
        · simp [runPair, hs, List.filter_cons, hk, ih, hins]

theorem sortedTs_cons {e : AlertEvent} {rest : List AlertEvent} :
    SortedTs (e :: rest)
      ↔ (∀ x ∈ rest, e.timestamp ≤ x.timestamp) ∧ SortedTs rest :=
  List.pairwise_cons

/-- With a negative window every stored window end lies strictly in the past,
so on sorted input the pass keeps every event. -/
theorem runPair_snd_of_neg (w : Int) (hw : w < 0) (l : List AlertEvent) :
    ∀ m : List (String × Int),
      (∀ p ∈ m, ∀ e ∈ l, p.2 < e.timestamp) → SortedTs l →
      (runPair w m l).2 = l := by
  induction l with
  | nil => intro m _ _; simp [runPair]
  | cons e rest ih =>
      intro m hm hs
      have hns : ¬ suppressedIn m e = true := by
        simp only [suppressedIn]
        cases hl : lookupEnd m (alert_hash e) with
        | none => simp
        | some v =>
            have hv := hm _ (lookupEnd_mem hl) e (List.mem_cons_self _ _)
            simp only [decide_eq_true_eq]
            omega
      have hrest : (runPair w (insertEnd m (alert_hash e) (e.timestamp + w)) rest).2
          = rest := by
        apply ih
        · intro p hp e' he'
          rcases mem_insertEnd hp with h1 | h1
          · have hle : e.timestamp ≤ e'.timestamp :=
              (sortedTs_cons.mp hs).1 e' he'
            rw [h1]
            simpa using by omega
          · exact hm p h1 e' (List.mem_cons_of_mem _ he')
        · exact (sortedTs_cons.mp hs).2
      simp [runPair, hns, hrest]

/-- Unfolding equation: a suppressed head leaves dictionary and output alone. -/
theorem runPair_cons_suppressed {w : Int} {m : List (String × Int)}
    {e : AlertEvent} {rest : List AlertEvent} (h : suppressedIn m e = true) :
    runPair w m (e :: rest) = runPair w m rest := by
  simp [runPair, h]

/-- Unfolding equation: a surviving head is kept and its window end stored. -/
theorem runPair_cons_survives {w : Int} {m : List (String × Int)}
    {e : AlertEvent} {rest : List AlertEvent} (h : ¬ suppressedIn m e = true) :
    runPair w m (e :: rest)
      = ((runPair w (insertEnd m (alert_hash e) (e.timestamp + w)) rest).1,
         e :: (runPair w (insertEnd m (alert_hash e) (e.timestamp + w)) rest).2) := by
  simp [runPair, h]

/-- Characterization of the final dictionary: each key's stored value is the
timestamp of its most recent survivor plus the window, falling back to the
initial entry when the key produced no survivor. -/
theorem runPair_fst_lookup (w : Int) (k : String) (l : List AlertEvent) :
    ∀ m : List (String × Int),
      lookupEnd (runPair w m l).1 k
        = (((runPair w m l).2.filter fun e => decide (alert_hash e = k)).getLast?).elim
            (lookupEnd m k) (fun x => some (x.timestamp + w)) := by
  induction l with
  | nil => intro m; simp [runPair]
  | cons e rest ih =>
      intro m
      by_cases hs : suppressedIn m e
      · simpa [runPair_cons_suppressed hs] using ih m
      · rw [runPair_cons_survives hs]
        by_cases hk : alert_hash e = k
        · have hins : lookupEnd (insertEnd m (alert_hash e) (e.timestamp + w)) k
              = some (e.timestamp + w) := by simp [lookupEnd_insertEnd, hk]
          rw [ih (insertEnd m (alert_hash e) (e.timestamp + w)), List.filter_cons,
            if_pos (by simp [hk])]
          cases hfo : (runPair w (insertEnd m (alert_hash e) (e.timestamp + w)) rest).2.filter
              (fun e => decide (alert_hash e = k)) with
          | nil => simp [hins]
          | cons b t =>
              rw [List.getLast?_eq_getLast (b :: t) (by simp),
                List.getLast?_eq_getLast (e :: b :: t) (by simp)]
              simp [List.getLast_cons]
        · have hins : lookupEnd (insertEnd m (alert_hash e) (e.timestamp + w)) k
              = lookupEnd m k := by simp [lookupEnd_insertEnd, hk]
          rw [ih (insertEnd m (alert_hash e) (e.timestamp + w)), hins, List.filter_cons,
            if_neg (by simp [hk])]

/-! Spec wording of the algorithm, and its agreement with the code. -/

theorem runPair_eq_specProcess (w : Int) (l : List AlertEvent) :
    ∀ (m : List (String × Int)) (awe : String → Option Int),
      (∀ k, lookupEnd m k = awe k) →
      (runPair w m l).2 = specProcess w awe l := by
  induction l with
  | nil => intro m awe _; simp [runPair, specProcess]
  | cons e rest ih =>
      intro m awe hagree
      have hupd : ∀ k,
          lookupEnd (insertEnd m (alert_hash e) (e.timestamp + w)) k
            = (fun k => if k = alert_hash e then some (e.timestamp + w) else awe k) k := by
        intro k
        by_cases hk : k = alert_hash e
        · simp [lookupEnd_insertEnd, hk]
        · have hk2 : ¬ alert_hash e = k := fun h => hk h.symm
          simp [lookupEnd_insertEnd, hk, hk2, hagree k]
      cases hm : awe (alert_hash e) with
      | some endT =>
          have hl : lookupEnd m (alert_hash e) = some endT := (hagree _).trans hm
          by_cases ht : e.timestamp ≤ endT
          · have hs : suppressedIn m e = true := by simp [suppressedIn, hl, ht]
            rw [runPair_cons_suppressed hs]
            simp [specProcess, hm, ht, ih m awe hagree]
          · have hs : ¬ suppressedIn m e = true := by simp [suppressedIn, hl, ht]
            rw [runPair_cons_survives hs]
            simp [specProcess, hm, ht, ih _ _ hupd]
      | none =>
          have hl : lookupEnd m (alert_hash e) = none := (hagree _).trans hm
          have hs : ¬ suppressedIn m e = true := by simp [suppressedIn, hl]
          rw [runPair_cons_survives hs]
          simp [specProcess, hm, ih _ _ hupd]

/-- Survivors of a sorted pass are sorted, hence the defensive sort leaves
the output of the engine unchanged. -/
theorem sortedTs_suppress (df : List AlertEvent) (w : Int) :
    SortedTs (suppress_and_deduplicate df w) := by
  rw [suppress_and_deduplicate_eq_runPair]
  exact List.Pairwise.sublist (runPair_snd_sublist w (sortTs df) []) (sortTs_sorted df)

/-- Helper for two-event same-key inputs: when the later event falls inside
(or exactly on) the window opened by the earlier one, only the earlier event
survives. -/
theorem runPair_two_same_key (w : Int) (e0 e1 : AlertEvent)
    (hk : alert_hash e1 = alert_hash e0)
    (hts : e0.timestamp ≤ e1.timestamp)
    (hsupp : e1.timestamp ≤ e0.timestamp + w) :
    suppress_and_deduplicate [e0, e1] w = [e0] := by
  have hsorted : SortedTs [e0, e1] := by
    rw [sortedTs_cons]
    refine ⟨fun x hx => ?_, ?_⟩
    · rw [List.mem_singleton] at hx; rw [hx]; exact hts
    · exact List.pairwise_singleton _ _
  rw [suppress_and_deduplicate_eq_runPair, sortTs_of_sorted hsorted]
  have h0 : ¬ suppressedIn [] e0 = true := by simp [suppressedIn, lookupEnd]
  rw [runPair_cons_survives h0]
  have h1 : suppressedIn (insertEnd [] (alert_hash e0) (e0.timestamp + w)) e1
      = true := by
    simp [suppressedIn, insertEnd, lookupEnd, hk, hsupp]
  simp [runPair, h1]

/-- C1: on input sorted ascending by timestamp, `suppress_and_deduplicate`
is exactly the single pass the spec describes: starting from an empty
`activeWindowEnd` map, an event whose key is stored with
`timestamp <= activeWindowEnd[key]` is discarded with the state unchanged,
every other event is appended to the output and stores
`timestamp + windowDuration` for its key, and the output is exactly the
surviving events in order. -/
theorem claim_c1_single_pass (df : List AlertEvent) (w : Int) (h : SortedTs df) :
    suppress_and_deduplicate df w = specProcess w (fun _ => none) df := by
  rw [suppress_and_deduplicate_eq_runPair, sortTs_of_sorted h]
  exact runPair_eq_specProcess w df [] _ (fun k => rfl)

/-- Witness for C1 at the three-alert scenario of the spec. -/
theorem claim_c1_single_pass_witness :
    SortedTs [sampleAlert 0 0, sampleAlert 1 5, sampleAlert 2 20]
      ∧ suppress_and_deduplicate [sampleAlert 0 0, sampleAlert 1 5, sampleAlert 2 20] 15
          = specProcess 15 (fun _ => none)
              [sampleAlert 0 0, sampleAlert 1 5, sampleAlert 2 20] :=
  ⟨by decide, claim_c1_single_pass _ 15 (by decide)⟩

/-- C3: the window boundary is inclusive: with window 15 a same-key event at
exactly t = 15 after a survivor at t = 0 is suppressed (comparison is `<=`,
not `<`); and a same-key event with a timestamp identical to its
predecessor's is suppressed for any nonnegative window, so the first
occurrence in input order survives a tie. -/
theorem claim_c3_boundary_inclusive (e0 e1 f0 f1 : AlertEvent) (w : Int)
    (hk : alert_hash e1 = alert_hash e0) (ht0 : e0.timestamp = 0)
    (ht1 : e1.timestamp = 15)
    (hk2 : alert_hash f1 = alert_hash f0) (htie : f1.timestamp = f0.timestamp)
    (hw : 0 ≤ w) :
    suppress_and_deduplicate [e0, e1] 15 = [e0]
      ∧ suppress_and_deduplicate [f0, f1] w = [f0] :=
  ⟨runPair_two_same_key 15 e0 e1 hk (by omega) (by omega),
   runPair_two_same_key w f0 f1 hk2 (by omega) (by omega)⟩

/-- Witness for C3: the boundary pair at t = 0 and t = 15 with window 15, and
a tied pair at t = 7 with window 3. -/
theorem claim_c3_boundary_inclusive_witness :
    (alert_hash (sampleAlert 1 15) = alert_hash (sampleAlert 0 0)
        ∧ (sampleAlert 0 0).timestamp = 0 ∧ (sampleAlert 1 15).timestamp = 15
        ∧ alert_hash (sampleAlert 3 7) = alert_hash (sampleAlert 2 7)
        ∧ (sampleAlert 3 7).timestamp = (sampleAlert 2 7).timestamp
        ∧ (0:Int) ≤ 3)
      ∧ suppress_and_deduplicate [sampleAlert 0 0, sampleAlert 1 15] 15
            = [sampleAlert 0 0]
        ∧ suppress_and_deduplicate [sampleAlert 2 7, sampleAlert 3 7] 3
            = [sampleAlert 2 7] :=
  ⟨⟨by decide, by decide, by decide, by decide, by decide, by decide⟩,
   claim_c3_boundary_inclusive (sampleAlert 0 0) (sampleAlert 1 15)
     (sampleAlert 2 7) (sampleAlert 3 7) 3 (by decide) (by decide) (by decide)
     (by decide) (by decide) (by decide)⟩

/-- C4: the engine is idempotent on its own output: re-running suppression
with the same window on the survivor sequence changes nothing. -/
theorem claim_c4_idempotent (df : List AlertEvent) (w : Int) :
    suppress_and_deduplicate (suppress_and_deduplicate df w) w
      = suppress_and_deduplicate df w := by
  have hs : SortedTs (suppress_and_deduplicate df w) := sortedTs_suppress df w
  conv_lhs => rw [suppress_and_deduplicate_eq_runPair, sortTs_of_sorted hs]
  rw [suppress_and_deduplicate_eq_runPair df]
  exact runPair_snd_idem w (sortTs df) []

/-- On a row with a stored hash the row-level loop body performs exactly the
event-level step, carrying the hashed row. -/
theorem suppressStepRow_addHash (w : Int) (m : List (String × Int))
    (acc : List AlertRow) (e : AlertEvent) :
    suppressStepRow w (m, acc) (addHash e)
      = if suppressedIn m e then (m, acc)
        else (insertEnd m (alert_hash e) (e.timestamp + w), acc ++ [addHash e]) :=
  rfl

/-- The pass over hashed rows returns exactly the hashed images of the
surviving events, in order. -/
theorem foldl_suppressStepRow (w : Int) (l : List AlertEvent) :
    ∀ (m : List (String × Int)) (acc : List AlertRow),
      ((l.map addHash).foldl (suppressStepRow w) (m, acc)).2
        = acc ++ ((runPair w m l).2).map addHash := by
  induction l with
  | nil => intro m acc; simp [runPair]
  | cons e rest ih =>
      intro m acc
      by_cases h : suppressedIn m e
      · rw [List.map_cons, List.foldl_cons, suppressStepRow_addHash, if_pos h,
          runPair_cons_suppressed h]
        exact ih m acc
      · rw [List.map_cons, List.foldl_cons, suppressStepRow_addHash, if_neg h,
          runPair_cons_survives h]
        rw [ih (insertEnd m (alert_hash e) (e.timestamp + w)) (acc ++ [addHash e])]
        simp

/-- The returned rows are the hashed images of the surviving base records. -/
theorem suppress_and_deduplicate_rows_eq_map (df : List AlertEvent) (w : Int) :
    suppress_and_deduplicate_rows df w
      = (suppress_and_deduplicate df w).map addHash := by
  rw [suppress_and_deduplicate_rows, suppress_and_deduplicate_eq_runPair]
  simpa using foldl_suppressStepRow w (sortTs df) [] []

/-- Counterexample to C6 as stated: at the singleton input below the
returned row is not the input record — it is a copy extended with the
`alert_hash` column stored at line 161 — even though its alert fields
coincide with the input's.  The claimed "same records, not copies with
added or changed fields" fails. -/
theorem claim_c6_counterexample :
    suppress_and_deduplicate_rows [sampleAlert 0 0] 15
        ≠ [toRow (sampleAlert 0 0)]
      ∧ suppress_and_deduplicate_rows [sampleAlert 0 0] 15
          = [{ base := sampleAlert 0 0, alert_hash := some "Service_0_CPU_High" }]
      ∧ (suppress_and_deduplicate_rows [sampleAlert 0 0] 15).map AlertRow.base
          = [sampleAlert 0 0] := by
  rw [suppress_and_deduplicate_rows, sortTs_of_sorted (by decide)]
  refine ⟨by decide, by decide, by decide⟩

/-- C6 (amended): the returned rows are copies of the surviving records
extended with the stored `alert_hash` column; stripping that added column,
the output is exactly a subsequence (by value, order preserved) of the
timestamp-sorted input, which is a permutation of the input — the input
records themselves are left unchanged, but the "same records, no added
fields" part of the original claim fails. -/
theorem claim_c6_rows_subsequence (df : List AlertEvent) (w : Int) :
    suppress_and_deduplicate_rows df w
        = (suppress_and_deduplicate df w).map addHash
      ∧ ((suppress_and_deduplicate_rows df w).map AlertRow.base).Sublist (sortTs df)
      ∧ (sortTs df).Perm df := by
  have h := suppress_and_deduplicate_rows_eq_map df w
  refine ⟨h, ?_, sortTs_perm df⟩
  rw [h, List.map_map]
  have hcomp : AlertRow.base ∘ addHash = id := rfl
  rw [hcomp, List.map_id, suppress_and_deduplicate_eq_runPair]
  exact runPair_snd_sublist w (sortTs df) []

/-- C7: for a positive window the output never has more events than the
input. -/
theorem claim_c7_length_le (df : List AlertEvent) (w : Int) (hw : 0 < w) :
    (suppress_and_deduplicate df w).length ≤ df.length := by
  have h1 : (suppress_and_deduplicate df w).Sublist (sortTs df) := by
    rw [suppress_and_deduplicate_eq_runPair]
    exact runPair_snd_sublist w (sortTs df) []
  calc (suppress_and_deduplicate df w).length
      ≤ (sortTs df).length := h1.length_le
    _ = df.length := (sortTs_perm df).length_eq

/-- Witness for C7 at a concrete two-alert stream and window 15. -/
theorem claim_c7_length_le_witness :
    (0:Int) < 15
      ∧ (suppress_and_deduplicate [sampleAlert 0 0, sampleAlert 1 5] 15).length
          ≤ ([sampleAlert 0 0, sampleAlert 1 5] : List AlertEvent).length :=
  ⟨by decide, claim_c7_length_le _ 15 (by decide)⟩

/-- Counterexample to C2 as stated: in the stream below the same-key alerts
at t = 14 and t = 16 are adjacent (no other alert of the key between them),
yet the one at t = 16 survives although 16 ≤ 14 + 15: the claimed
"second survives iff t1 > t0 + w" fails when the earlier alert of the pair
was itself suppressed, because the active window was opened by a still
earlier survivor (here t = 0). -/
theorem claim_c2_counterexample :
    suppress_and_deduplicate [sampleAlert 0 0, sampleAlert 1 14, sampleAlert 2 16] 15
        = [sampleAlert 0 0, sampleAlert 2 16]
      ∧ ¬ ((16:Int) > 14 + 15) := by
  refine ⟨?_, by decide⟩
  rw [suppress_and_deduplicate, suppressionRun, sortTs_of_sorted (by decide)]
  decide

/-- C2 (amended): when the two same-key events are the only events of their
key in the sorted input, the second survives iff `t1 > t0 + w`; and the
spec's concrete scenario (same key at t = 0, 5, 20 with window 15) keeps
exactly the alerts at t = 0 and t = 20. -/
theorem claim_c2_window_arithmetic (df : List AlertEvent) (w : Int) (k : String)
    (e0 e1 : AlertEvent) (hs : SortedTs df)
    (hf : df.filter (fun e => decide (alert_hash e = k)) = [e0, e1]) :
    ((suppress_and_deduplicate df w).filter (fun e => decide (alert_hash e = k))
        = if e0.timestamp + w < e1.timestamp then [e0, e1] else [e0])
      ∧ suppress_and_deduplicate [sampleAlert 0 0, sampleAlert 1 5, sampleAlert 2 20] 15
          = [sampleAlert 0 0, sampleAlert 2 20] := by
  constructor
  · rw [suppress_and_deduplicate_eq_runPair, sortTs_of_sorted hs,
      runPair_filter_key, hf]
    by_cases h : e1.timestamp ≤ e0.timestamp + w
    · rw [if_neg (by omega)]
      simp [lookupEnd, runKey, h]
    · rw [if_pos (by omega)]
      simp [lookupEnd, runKey, h]
  · rw [suppress_and_deduplicate, suppressionRun, sortTs_of_sorted (by decide)]
    decide

/-- Witness for C2 (amended) at a two-alert stream of one key, t = 0 and
t = 20, window 15. -/
theorem claim_c2_window_arithmetic_witness :
    (SortedTs [sampleAlert 0 0, sampleAlert 1 20]
        ∧ [sampleAlert 0 0, sampleAlert 1 20].filter
            (fun e => decide (alert_hash e = "Service_0_CPU_High"))
          = [sampleAlert 0 0, sampleAlert 1 20])
      ∧ ((suppress_and_deduplicate [sampleAlert 0 0, sampleAlert 1 20] 15).filter
            (fun e => decide (alert_hash e = "Service_0_CPU_High"))
          = if (sampleAlert 0 0).timestamp + 15 < (sampleAlert 1 20).timestamp
            then [sampleAlert 0 0, sampleAlert 1 20] else [sampleAlert 0 0])
        ∧ suppress_and_deduplicate [sampleAlert 0 0, sampleAlert 1 5, sampleAlert 2 20] 15
            = [sampleAlert 0 0, sampleAlert 2 20] :=
  ⟨⟨by decide, by decide⟩,
   claim_c2_window_arithmetic [sampleAlert 0 0, sampleAlert 1 20] 15
     "Service_0_CPU_High" (sampleAlert 0 0) (sampleAlert 1 20)
     (by decide) (by decide)⟩

/-- Counterexample to C5 as stated: with window 0 a duplicate alert carrying
the very same timestamp as its same-key predecessor is still suppressed
(`0 <= 0 + 0`), so a zero window is not a no-op: the output differs from the
(sorted) input. -/
theorem claim_c5_counterexample :
    suppress_and_deduplicate [sampleAlert 0 0, sampleAlert 1 0] 0
      ≠ [sampleAlert 0 0, sampleAlert 1 0] := by
  rw [suppress_and_deduplicate, suppressionRun, sortTs_of_sorted (by decide)]
  decide

/-- C5 (amended): for sorted input and a strictly negative window nothing is
ever suppressed and the call (a total function, so it cannot crash) returns
the input unchanged; at window 0 the no-op claim fails, since an event whose
timestamp equals its same-key predecessor's is suppressed. -/
theorem claim_c5_nonpositive_window (df : List AlertEvent) (w : Int)
    (hs : SortedTs df) (hw : w < 0) :
    suppress_and_deduplicate df w = df := by
  rw [suppress_and_deduplicate_eq_runPair, sortTs_of_sorted hs]
  exact runPair_snd_of_neg w hw df [] (by simp) hs

/-- Witness for C5 (amended) at a same-key pair with window -1. -/
theorem claim_c5_nonpositive_window_witness :
    (SortedTs [sampleAlert 0 0, sampleAlert 1 0] ∧ (-1:Int) < 0)
      ∧ suppress_and_deduplicate [sampleAlert 0 0, sampleAlert 1 0] (-1)
          = [sampleAlert 0 0, sampleAlert 1 0] :=
  ⟨⟨by decide, by decide⟩,
   claim_c5_nonpositive_window [sampleAlert 0 0, sampleAlert 1 0] (-1)
     (by decide) (by decide)⟩

/-- C8: key isolation. Two sorted runs whose inputs carry the same
subsequence of key-B alerts produce exactly the same key-B survivors, no
matter how the alerts of other keys differ; and in the spec's scenario two
alerts of different keys at t = 0 and t = 1 both survive window 15. -/
theorem claim_c8_key_isolation (l1 l2 : List AlertEvent) (w : Int) (B : String)
    (h1 : SortedTs l1) (h2 : SortedTs l2)
    (hagree : l1.filter (fun e => decide (alert_hash e = B))
        = l2.filter (fun e => decide (alert_hash e = B))) :
    (suppress_and_deduplicate l1 w).filter (fun e => decide (alert_hash e = B))
        = (suppress_and_deduplicate l2 w).filter (fun e => decide (alert_hash e = B))
      ∧ suppress_and_deduplicate [sampleAlert 0 0, sampleAlertB 1 1] 15
          = [sampleAlert 0 0, sampleAlertB 1 1] := by
  constructor
  · rw [suppress_and_deduplicate_eq_runPair, sortTs_of_sorted h1,
      suppress_and_deduplicate_eq_runPair, sortTs_of_sorted h2,
      runPair_filter_key, runPair_filter_key, hagree]
  · rw [suppress_and_deduplicate, suppressionRun, sortTs_of_sorted (by decide)]
    decide

/-- Witness for C8: the second stream carries an extra alert of another key
but the same key-B subsequence. -/
theorem claim_c8_key_isolation_witness :
    (SortedTs [sampleAlert 0 0, sampleAlert 1 20]
        ∧ SortedTs [sampleAlertB 5 0, sampleAlert 0 0, sampleAlert 1 20]
        ∧ [sampleAlert 0 0, sampleAlert 1 20].filter
              (fun e => decide (alert_hash e = "Service_0_CPU_High"))
            = [sampleAlertB 5 0, sampleAlert 0 0, sampleAlert 1 20].filter
              (fun e => decide (alert_hash e = "Service_0_CPU_High")))
      ∧ (suppress_and_deduplicate [sampleAlert 0 0, sampleAlert 1 20] 15).filter
            (fun e => decide (alert_hash e = "Service_0_CPU_High"))
          = (suppress_and_deduplicate
                [sampleAlertB 5 0, sampleAlert 0 0, sampleAlert 1 20] 15).filter
            (fun e => decide (alert_hash e = "Service_0_CPU_High"))
        ∧ suppress_and_deduplicate [sampleAlert 0 0, sampleAlertB 1 1] 15
            = [sampleAlert 0 0, sampleAlertB 1 1] :=
  ⟨⟨by decide, by decide, by decide⟩,
   claim_c8_key_isolation [sampleAlert 0 0, sampleAlert 1 20]
     [sampleAlertB 5 0, sampleAlert 0 0, sampleAlert 1 20] 15
     "Service_0_CPU_High" (by decide) (by decide) (by decide)⟩

/-- C9: state lifecycle of `suppression_end`. The dictionary starts empty
(literal in `suppressionRun`), and after processing any input its entry for
a key is exactly the timestamp of the key's most recent survivor plus the
window duration, and absent when the key has no survivor: suppressed events
never modify the dictionary and entries are never deleted.  As the input
list is universally quantified the equality pins the state after every
prefix of the pass. -/
theorem claim_c9_state_lifecycle (df : List AlertEvent) (w : Int) (k : String) :
    lookupEnd (suppressionRun df w).1 k
      = ((suppress_and_deduplicate df w).filter
            (fun e => decide (alert_hash e = k))).getLast?.map
          (fun x => x.timestamp + w) := by
  rw [suppressionRun_eq_runPair, suppress_and_deduplicate_eq_runPair,
    runPair_fst_lookup]
  cases ((runPair w [] (sortTs df)).2.filter
      (fun e => decide (alert_hash e = k))).getLast? with
  | none => simp [lookupEnd]
  | some x => simp

/-- Counterexample to C10 as stated: the two streams below are permutations
of each other (two alerts of different keys, both at t = 0), yet the engine
returns them in different orders, so processing a permutation does not
always agree with processing "the" timestamp-sorted sequence: with tied
timestamps the result depends on the input order. -/
theorem claim_c10_counterexample :
    List.Perm [sampleAlertB 1 0, sampleAlert 0 0] [sampleAlert 0 0, sampleAlertB 1 0]
      ∧ suppress_and_deduplicate [sampleAlertB 1 0, sampleAlert 0 0] 15
          ≠ suppress_and_deduplicate [sampleAlert 0 0, sampleAlertB 1 0] 15 := by
  constructor
  · decide
  · have hx : suppress_and_deduplicate [sampleAlertB 1 0, sampleAlert 0 0] 15
        = [sampleAlertB 1 0, sampleAlert 0 0] := by
      rw [suppress_and_deduplicate, suppressionRun, sortTs_of_sorted (by decide)]
      decide
    have hy : suppress_and_deduplicate [sampleAlert 0 0, sampleAlertB 1 0] 15
        = [sampleAlert 0 0, sampleAlertB 1 0] := by
      rw [suppress_and_deduplicate, suppressionRun, sortTs_of_sorted (by decide)]
      decide
    rw [hx, hy]
    decide

/-- C10 (amended): the engine never validates ordering and never raises (it
is a total function that sorts defensively); an empty input gives an empty
output; and whenever the timestamps are pairwise distinct, every permutation
of an input is processed to the same output, so the permutation-invariance
claimed only fails on streams with tied timestamps. -/
theorem claim_c10_defensive_sort (x y : List AlertEvent) (w : Int)
    (hperm : x.Perm y)
    (hdist : x.Pairwise fun a b => a.timestamp ≠ b.timestamp) :
    suppress_and_deduplicate x w = suppress_and_deduplicate y w
      ∧ suppress_and_deduplicate [] w = [] := by
  constructor
  · have hsortEq : sortTs x = sortTs y := by
      have hdx : (sortTs x).Pairwise fun a b => a.timestamp ≠ b.timestamp :=
        ((sortTs_perm x).pairwise_iff fun h => h.symm).mpr hdist
      have hdy : (sortTs y).Pairwise fun a b => a.timestamp ≠ b.timestamp :=
        (((sortTs_perm y).trans hperm.symm).pairwise_iff fun h => h.symm).mpr hdist
      have hltx : (sortTs x).Pairwise fun a b => a.timestamp < b.timestamp :=
        (sortTs_sorted x).imp₂ (fun a b hle hne => lt_of_le_of_ne hle hne) hdx
      have hlty : (sortTs y).Pairwise fun a b => a.timestamp < b.timestamp :=
        (sortTs_sorted y).imp₂ (fun a b hle hne => lt_of_le_of_ne hle hne) hdy
      haveI : IsAntisymm AlertEvent fun a b => a.timestamp < b.timestamp :=
        ⟨fun a b h1 h2 => absurd h2 (not_lt_of_gt h1)⟩
      exact List.eq_of_perm_of_sorted
        ((sortTs_perm x).trans (hperm.trans (sortTs_perm y).symm)) hltx hlty
    rw [suppress_and_deduplicate, suppressionRun, hsortEq,
      suppress_and_deduplicate, suppressionRun]
  · simp [suppress_and_deduplicate, suppressionRun, sortTs]

/-- Witness for C10 (amended): a two-alert stream with distinct timestamps
and its reversal. -/
theorem claim_c10_defensive_sort_witness :
    (List.Perm [sampleAlert 1 5, sampleAlert 0 0] [sampleAlert 0 0, sampleAlert 1 5]
        ∧ ([sampleAlert 1 5, sampleAlert 0 0] : List AlertEvent).Pairwise
            (fun a b => a.timestamp ≠ b.timestamp))
      ∧ suppress_and_deduplicate [sampleAlert 1 5, sampleAlert 0 0] 15
            = suppress_and_deduplicate [sampleAlert 0 0, sampleAlert 1 5] 15
        ∧ suppress_and_deduplicate [] 15 = [] :=
  ⟨⟨by decide, by decide⟩,
   claim_c10_defensive_sort [sampleAlert 1 5, sampleAlert 0 0]
     [sampleAlert 0 0, sampleAlert 1 5] 15 (by decide) (by decide)⟩
